import Mathlib

/-!
# Railway traffic optimizer — shallow embedding and verification

This file embeds the core of the railway traffic simulator
(`backend/simulation.py` and `rt_simulation.py`) in Lean 4 and settles the
specification claims against it.

Modelling conventions:
* Python floats are modelled as rationals (`ℚ`); the algorithms only use
  `+`, `*`, `min`, `max` and comparisons, so the idealisation is exact.
* A `networkx.MultiDiGraph` is modelled as a list of directed edge records;
  `graph[u][v][0]` (the first parallel edge) is the first matching record.
* Python dicts (the train registry, conflict grouping) are modelled as
  association lists with Python's insertion-order semantics: assigning to an
  existing key replaces the value in place, a new key is appended at the end.
* Methods that mutate a `Train` become functions `Train → Train`; the tick
  and registry-level methods become functions on the registry list.
-/

namespace Railway

/-- A directed edge of the track graph with its `length` attribute (meters)
and optional `max_speed` attribute (km/h), as read by
`graph[u][v][0].get("length", 0.0)` / `.get("max_speed")`. -/
structure GEdge where
  u : String
  v : String
  length : ℚ
  maxSpeedKmh : Option ℚ
deriving DecidableEq, Repr

/-- The track network: a `networkx.MultiDiGraph` restricted to the attributes
the simulation reads. -/
structure Graph where
  edges : List GEdge
deriving DecidableEq, Repr

/-- `graph.has_edge(u, v)`. -/
def Graph.hasEdge (g : Graph) (u v : String) : Bool :=
  g.edges.any (fun e => e.u = u ∧ e.v = v)

/-- `graph[u][v][0]`: the first parallel edge from `u` to `v`, when present. -/
def Graph.findEdge (g : Graph) (u v : String) : Option GEdge :=
  g.edges.find? (fun e => e.u = u ∧ e.v = v)

/-- `graph[u][v][0].get("max_speed")` (only evaluated when the edge exists). -/
def Graph.maxSpeedKmh (g : Graph) (u v : String) : Option ℚ :=
  match g.findEdge u v with
  | some e => e.maxSpeedKmh
  | none => none

/-! ## Backend simulation (`backend/simulation.py`) -/

/-- The mutable train state of `backend/simulation.py` (`Train` dataclass).
`planned_times_min` is omitted: no embedded operation reads it. -/
structure Train where
  id : String
  ttype : String
  speed_mps : ℚ
  priority : ℤ
  position : ℚ
  route : List String
  current_edge : Option (String × String)
  delay_min : ℕ
  status : String
deriving DecidableEq, Repr

/-- The train registry `self.trains : Dict[str, Train]` with Python dict
insertion-order semantics. -/
abbrev Registry := List (String × Train)

/-- Python dict assignment `d[k] = t`: replace in place when the key is
present, append otherwise. -/
def dictInsert {α : Type} (reg : List (String × α)) (k : String) (t : α) :
    List (String × α) :=
  match reg with
  | [] => [(k, t)]
  | (k₀, t₀) :: rest =>
    if k₀ = k then (k₀, t) :: rest else (k₀, t₀) :: dictInsert rest k t

/-- Dict lookup `d.get(k)`. -/
def dictGet {α : Type} (reg : List (String × α)) (k : String) : Option α :=
  match reg with
  | [] => none
  | (k₀, t₀) :: rest => if k₀ = k then some t₀ else dictGet rest k

/-- `RailwaySimulation.add_train`: `self.trains[train.id] = train`, no
validation, no return value. -/
def add_train (reg : Registry) (t : Train) : Registry :=
  dictInsert reg t.id t

/-- `RailwaySimulation._edge_length`: `0.0` when either node is falsy (the
empty string) or the edge is absent, the `length` attribute otherwise. -/
def edge_length (g : Graph) (u v : String) : ℚ :=
  if u = "" ∨ v = "" then 0
  else match g.findEdge u v with
    | some e => e.length
    | none => 0

/-- `list.index(x)` guarded by `x in list` (`idx = r.index(u) if u in r else -1`),
as an `Option`. -/
def indexOfNode : List String → String → Option ℕ
  | [], _ => none
  | x :: xs, u => if x = u then some 0 else (indexOfNode xs u).map (· + 1)

/-- Effective speed used by `_advance_train_position` (lines 118–119):
the train's rated speed, capped by the edge's `max_speed` (km/h → m/s)
when that attribute is present. -/
def effectiveSpeed (g : Graph) (t : Train) (u v : String) : ℚ :=
  match g.maxSpeedKmh u v with
  | none => t.speed_mps
  | some k => min t.speed_mps (k / (18 / 5 : ℚ))

/-- Body of `_advance_train_position` from line 113 on: the train already has
a current edge `(u, v)`. -/
def advanceOnEdge (g : Graph) (t : Train) (u v : String) : Train :=
  let length := edge_length g u v
  if length ≤ 0 then { t with status := "stopped" }
  else
    let vmax_mps := effectiveSpeed g t u v
    let progress_m := max 0 vmax_mps * 60
    let pos := min length (t.position + progress_m)
    let t₁ := { t with position := pos }
    if pos ≥ length - 1 / 1000 then
      match indexOfNode t.route u with
      | some idx =>
        if idx + 2 < t.route.length then
          let next_u := t.route.getD (idx + 1) ""
          let next_v := t.route.getD (idx + 2) ""
          if g.hasEdge next_u next_v then
            { t₁ with current_edge := some (next_u, next_v), position := 0,
                      status := "running" }
          else { t₁ with status := "stopped" }
        else { t₁ with status := "stopped" }
      | none => { t₁ with status := "stopped" }
    else t₁

/-- `RailwaySimulation._advance_train_position`. A train with no current edge
is first placed on its first route edge (falling through to the advancement
code in the same call) or stopped when that edge is unavailable. -/
def advance_train_position (g : Graph) (t : Train) : Train :=
  match t.current_edge with
  | some (u, v) => advanceOnEdge g t u v
  | none =>
    if 2 ≤ t.route.length ∧ g.hasEdge (t.route.getD 0 "") (t.route.getD 1 "") then
      advanceOnEdge g
        { t with current_edge := some (t.route.getD 0 "", t.route.getD 1 ""),
                 position := 0, status := "running" }
        (t.route.getD 0 "") (t.route.getD 1 "")
    else { t with status := "stopped" }

/-- The next edge a train asks for in `_find_conflicts`: its first route edge
when it has no current edge, otherwise — when its position has reached the end
of its current edge within the `1e-3` tolerance — the edge
`(route[idx+1], route[idx+2])` where `idx` is the first occurrence of the
current edge's source node in the route; in each case only when that edge
exists in the graph. -/
def requestedEdge (g : Graph) (t : Train) : Option (String × String) :=
  match t.current_edge with
  | none =>
    if 2 ≤ t.route.length ∧ g.hasEdge (t.route.getD 0 "") (t.route.getD 1 "") then
      some (t.route.getD 0 "", t.route.getD 1 "")
    else none
  | some (u, v) =>
    if t.position ≥ edge_length g u v - 1 / 1000 then
      match indexOfNode t.route u with
      | some idx =>
        if idx + 2 < t.route.length then
          let ne := (t.route.getD (idx + 1) "", t.route.getD (idx + 2) "")
          if g.hasEdge ne.1 ne.2 then some ne else none
        else none
      | none => none
    else none

/-- `edge_to_trains.setdefault(edge, []).append(t.id)`: append the id to the
existing group, or append a new singleton group at the end. -/
def addToGroup : List ((String × String) × List String) → (String × String) →
    String → List ((String × String) × List String)
  | [], e, i => [(e, [i])]
  | (k, ids) :: rest, e, i =>
    if k = e then (k, ids ++ [i]) :: rest else (k, ids) :: addToGroup rest e i

/-- One iteration of the `_find_conflicts` loop: record the train's requested
edge, when it has one. -/
def conflictStep (g : Graph) (acc : List ((String × String) × List String))
    (t : Train) : List ((String × String) × List String) :=
  match requestedEdge g t with
  | some e => addToGroup acc e t.id
  | none => acc

/-- The `edge_to_trains` grouping built by `_find_conflicts` over the trains in
registry order. -/
def conflictGroups (g : Graph) (trains : List Train) :
    List ((String × String) × List String) :=
  trains.foldl (conflictStep g) []

/-- The id list stored for an edge in an `edge_to_trains` grouping (`[]` when
the edge has no group); a proof-side accessor. -/
def groupIds (gs : List ((String × String) × List String)) (e : String × String) :
    List String :=
  match gs with
  | [] => []
  | (k, ids) :: rest => if k = e then ids else groupIds rest e

/-- `RailwaySimulation._find_conflicts`: the groups requested by more than one
train. -/
def find_conflicts (g : Graph) (trains : List Train) :
    List ((String × String) × List String) :=
  (conflictGroups g trains).filter (fun p => 1 < p.2.length)

/-- Inner loop body of `_apply_decisions` for one decision `(key, winner)`:
a train with a current edge, at its end, whose next edge renders as `key`
(`f"{nu}->{nv}"`) and which is not the winner, is held (`delay_min += 1`,
`status = "held"`); every other train is left unchanged. -/
def applyDecisionToTrain (g : Graph) (key winner : String) (t : Train) : Train :=
  match t.current_edge with
  | none => t
  | some (u, v) =>
    if t.position ≥ edge_length g u v - 1 / 1000 then
      match indexOfNode t.route u with
      | some idx =>
        if idx + 2 < t.route.length then
          let nu := t.route.getD (idx + 1) ""
          let nv := t.route.getD (idx + 2) ""
          if nu ++ "->" ++ nv = key ∧ t.id ≠ winner then
            { t with delay_min := t.delay_min + 1, status := "held" }
          else t
        else t
      | none => t
    else t

/-- `RailwaySimulation._apply_decisions` over a decision map (already in
iteration order as `(key, winner)` pairs). -/
def apply_decisions (g : Graph) (decisions : List (String × String))
    (reg : Registry) : Registry :=
  decisions.foldl
    (fun r kw => r.map (fun p => (p.1, applyDecisionToTrain g kw.1 kw.2 p.2)))
    reg

/-- `RailwaySimulation._step_one_minute`, parameterised by the optimizer's
`decide` (the `ConflictDecisionOptimizer` class is not part of the analysed
sources; `decide` maps the conflict list and the registry to the decision
map). Conflicts are detected, decisions applied when any conflict exists,
then every train is advanced one simulated minute (the trailing
`prev_status` check in the source is a no-op `pass`). -/
def step_one_minute (g : Graph)
    (dec : List ((String × String) × List String) → Registry →
      List (String × String))
    (reg : Registry) : Registry :=
  let conflicts := find_conflicts g (reg.map Prod.snd)
  let reg₁ :=
    if conflicts.isEmpty then reg else apply_decisions g (dec conflicts reg) reg
  reg₁.map (fun p => (p.1, advance_train_position g p.2))

/-! ### State snapshot (`RailwaySimulation.state_snapshot`) -/

/-- One row of the snapshot emitted per train. -/
structure SnapshotRow where
  id : String
  ttype : String
  priority : ℤ
  edge : Option (String × String)
  position_m : ℚ
  edge_length_m : ℚ
  speed_mps : ℚ
  status : String
  progress : ℚ
  delay_min : ℕ
deriving DecidableEq, Repr

/-- Python `round(x, 2)`, modelled as nearest-integer rounding of `100·x`
(Python rounds ties to even; no claim depends on tie behaviour). -/
def round2 (x : ℚ) : ℚ := ((round (x * 100) : ℤ) : ℚ) / 100

/-- Python `round(x, 4)`. -/
def round4 (x : ℚ) : ℚ := ((round (x * 10000) : ℤ) : ℚ) / 10000

/-- The snapshot row built for one train. `u and v` (both nodes truthy, i.e.
nonempty) guards both the `edge` field and the length lookup; `t.position or
0.0` equals `t.position` over ℚ. -/
def snapshotRow (g : Graph) (t : Train) : SnapshotRow :=
  let uv : Option (String × String) :=
    match t.current_edge with
    | some (u, v) => if u ≠ "" ∧ v ≠ "" then some (u, v) else none
    | none => none
  let length : ℚ :=
    match uv with
    | some (u, v) => edge_length g u v
    | none => 0
  let progress : ℚ :=
    if length ≤ 0 then 0 else max 0 (min 1 (t.position / length))
  { id := t.id, ttype := t.ttype, priority := t.priority, edge := uv,
    position_m := round2 t.position, edge_length_m := round2 length,
    speed_mps := round2 t.speed_mps, status := t.status,
    progress := round4 progress, delay_min := t.delay_min }

/-- `RailwaySimulation.state_snapshot` with the registry threaded explicitly:
the loop reads each train, appends its row, and writes nothing back, so the
returned registry is rebuilt unchanged element by element. -/
def state_snapshot (g : Graph) (reg : Registry) :
    List SnapshotRow × Registry :=
  reg.foldl (fun acc p => (acc.1 ++ [snapshotRow g p.2], acc.2 ++ [p])) ([], [])

/-! ## Real-time simulation (`rt_simulation.py`) -/

/-- The `Train` dataclass of `rt_simulation.py` (`last_update_ms`, a wall-clock
timestamp, is omitted: nothing embedded reads it). -/
structure RTTrain where
  train_id : String
  priority : String
  max_speed_mps : ℚ
  path_nodes : List String
  planned_departure_s : ℚ
  planned_arrival_s : ℚ
  position_edge : Option (String × String)
  position_m : ℚ
  speed_mps : ℚ
  status : String
deriving DecidableEq, Repr

/-- The registry `AsyncSimulation.trains`. -/
abbrev RTRegistry := List (String × RTTrain)

/-- `AsyncSimulation._edge_length`: the `length` attribute when the edge
exists, `0.0` otherwise. -/
def rt_edge_length (g : Graph) (u v : String) : ℚ :=
  match g.findEdge u v with
  | some e => e.length
  | none => 0

/-- The event kinds of `rt_simulation.EventType` with the payload fields each
handler reads. `speed` carries `payload.get("speed_mps")` (`none` = absent,
defaulting to the train's `max_speed_mps`); `reroute` carries
`payload.get("path") or []` (an absent or non-list payload behaves as `[]`,
failing the length check); `delay` carries `payload.get("delay_s", 0)`. -/
inductive EventKind where
  | hold
  | speed (sp : Option ℚ)
  | reroute (path : List String)
  | delay (d : ℚ)
  | breakdown
deriving DecidableEq, Repr

/-- `AsyncSimulation.inject_event`: returns the bool the handler returns and
the updated registry (in Python the train object is mutated in place). An
unknown train id, or a `reroute` whose path is shorter than two nodes, falls
through to `return False` with no mutation. -/
def inject_event (reg : RTRegistry) (train_id : String) (ev : EventKind) :
    Bool × RTRegistry :=
  match dictGet reg train_id with
  | none => (false, reg)
  | some t =>
    match ev with
    | .hold =>
      (true, dictInsert reg train_id { t with status := "held", speed_mps := 0 })
    | .speed sp =>
      let s := sp.getD t.max_speed_mps
      (true, dictInsert reg train_id { t with max_speed_mps := max 0 s })
    | .reroute path =>
      if 2 ≤ path.length then
        (true, dictInsert reg train_id
          { t with path_nodes := path,
                   position_edge := some (path.getD 0 "", path.getD 1 ""),
                   position_m := 0, status := "running" })
      else (false, reg)
    | .delay d =>
      (true, dictInsert reg train_id
        { t with planned_departure_s := t.planned_departure_s + d })
    | .breakdown =>
      (true, dictInsert reg train_id { t with status := "delayed", speed_mps := 0 })

/-- Effective speed cap in `AsyncSimulation._advance_train` (lines 194–195). -/
def rtMaxSpeed (g : Graph) (t : RTTrain) (u v : String) : ℚ :=
  match g.maxSpeedKmh u v with
  | none => t.max_speed_mps
  | some k => min t.max_speed_mps (k / (18 / 5 : ℚ))

/-- Body of `_advance_train` once the train has a current edge `(u, v)`.
Line 196's `t.speed_mps or max_speed` is Python truthiness: a zero speed is
falsy and is replaced by `max_speed`. If `u` were absent from `path_nodes`,
Python's `path_nodes.index(u)` would raise; that is modelled as the train
stopping, and no statement below exercises that case. -/
def rtAdvanceOnEdge (g : Graph) (t : RTTrain) (u v : String) (dt : ℚ) : RTTrain :=
  let length := rt_edge_length g u v
  if length ≤ 0 then { t with status := "stopped" }
  else
    let max_speed := rtMaxSpeed g t u v
    let sp := min max_speed (max 0 (if t.speed_mps = 0 then max_speed else t.speed_mps))
    let pos := min length (t.position_m + sp * dt)
    let t₁ := { t with speed_mps := sp, position_m := pos }
    if pos ≥ length - 1 / 1000 then
      match (if t.path_nodes.isEmpty then none else indexOfNode t.path_nodes u) with
      | some idx =>
        if idx + 2 < t.path_nodes.length then
          let new_u := t.path_nodes.getD (idx + 1) ""
          let new_v := t.path_nodes.getD (idx + 2) ""
          if g.hasEdge new_u new_v then
            { t₁ with position_edge := some (new_u, new_v), position_m := 0,
                      status := "running" }
          else { t₁ with status := "stopped" }
        else { t₁ with status := "stopped" }
      | none => { t₁ with status := "stopped" }
    else t₁

/-- `AsyncSimulation._advance_train`: initialise onto the first path edge when
needed (falling through to the advancement code in the same call), else stop. -/
def advance_train (g : Graph) (t : RTTrain) (dt : ℚ) : RTTrain :=
  match t.position_edge with
  | some (u, v) => rtAdvanceOnEdge g t u v dt
  | none =>
    if 2 ≤ t.path_nodes.length ∧
        g.hasEdge (t.path_nodes.getD 0 "") (t.path_nodes.getD 1 "") then
      rtAdvanceOnEdge g
        { t with position_edge := some (t.path_nodes.getD 0 "", t.path_nodes.getD 1 ""),
                 position_m := 0, status := "running" }
        (t.path_nodes.getD 0 "") (t.path_nodes.getD 1 "") dt
    else { t with status := "stopped" }

/-- `AsyncSimulation._tick`: advance every train by `dt`. -/
def rt_tick (g : Graph) (dt : ℚ) (reg : RTRegistry) : RTRegistry :=
  reg.map (fun p => (p.1, advance_train g p.2 dt))

/-- `AsyncSimulation.add_train`: unconditional dict assignment, returns
`True`. -/
def rt_add_train (reg : RTRegistry) (t : RTTrain) : Bool × RTRegistry :=
  (true, dictInsert reg t.train_id t)

/-! ## Spec-side definitions (for refinement comparison) -/

/-- The route segment following the current segment `(u, v)` in a route:
scan for the adjacent pair `(u, v)` and return the pair that starts where it
ends, when the route continues. -/
def followingSegment : List String → String → String → Option (String × String)
  | a :: b :: rest, u, v =>
    if a = u ∧ b = v then
      match rest with
      | c :: _ => some (b, c)
      | [] => none
    else followingSegment (b :: rest) u v
  | _, _, _ => none

/-- The next segment a train intends to occupy in the words of the spec
(§4.4, claim C8): its first route segment when it has no current segment;
when its position has reached the end of its current segment, the route
segment following the current one. Written from the spec's sentence, for
comparison against `requestedEdge` (which is extracted from the source). -/
def specIntendedNext (g : Graph) (t : Train) : Option (String × String) :=
  match t.current_edge with
  | none =>
    if 2 ≤ t.route.length then some (t.route.getD 0 "", t.route.getD 1 "")
    else none
  | some (u, v) =>
    if t.position ≥ edge_length g u v - 1 / 1000 then
      followingSegment t.route u v
    else none

/-! ## Concrete scenarios used by counterexamples and witnesses -/

/-- Two mid-route trains about to contend for segment `B→D`
(the spec's §8 contention scenario, adapted to a shared next edge). -/
def gC1 : Graph :=
  ⟨[⟨"A", "B", 100, none⟩, ⟨"C", "B", 100, none⟩, ⟨"B", "D", 100, none⟩]⟩

/-- Train at the end of `A→B`, next segment `B→D`, priority 1. -/
def tT1 : Train :=
  ⟨"T1", "express", 10, 1, 100, ["A", "B", "D"], some ("A", "B"), 0, "running"⟩

/-- Train at the end of `C→B`, next segment `B→D`, priority 2. -/
def tT2 : Train :=
  ⟨"T2", "express", 10, 2, 100, ["C", "B", "D"], some ("C", "B"), 0, "running"⟩

/-- Registry holding the two contending trains. -/
def regC1 : Registry := [("T1", tT1), ("T2", tT2)]

/-- Graph with a zero-length segment `A→B` followed by `B→C`. -/
def gC4 : Graph := ⟨[⟨"A", "B", 0, none⟩, ⟨"B", "C", 100, none⟩]⟩

/-- Train sitting on the zero-length segment `A→B` of `gC4`. -/
def tC4 : Train :=
  ⟨"Z", "express", 10, 1, 0, ["A", "B", "C"], some ("A", "B"), 0, "running"⟩

/-- Graph for the C8 counterexample: a cycle `A→B→C→A` plus `A→D`. -/
def gC8 : Graph :=
  ⟨[⟨"A", "B", 100, none⟩, ⟨"B", "C", 100, none⟩, ⟨"C", "A", 100, none⟩,
    ⟨"A", "D", 100, none⟩]⟩

/-- Train on its final route segment `A→D` of the route `A,B,C,A,D` (the
route revisits node `A`), at the end of that segment. -/
def tX : Train :=
  ⟨"X", "express", 10, 1, 100, ["A", "B", "C", "A", "D"], some ("A", "D"), 0,
   "running"⟩

/-- Train that has not started yet, whose first route segment is `B→C`. -/
def tY : Train := ⟨"Y", "express", 10, 1, 0, ["B", "C"], none, 0, "stopped"⟩

/-- Simple two-segment line for the real-time simulation scenarios. -/
def gRT : Graph := ⟨[⟨"A", "B", 100, none⟩, ⟨"B", "C", 100, none⟩]⟩

/-- Running train on `A→B` of `gRT` at the start of the segment. -/
def tRT : RTTrain :=
  ⟨"R1", "express", 10, ["A", "B", "C"], 0, 0, some ("A", "B"), 0, 10, "running"⟩

/-- Registry holding `tRT`. -/
def regRT : RTRegistry := [("R1", tRT)]

/-! ## Helper lemmas -/

theorem dictGet_dictInsert_self {α : Type} (reg : List (String × α)) (k : String)
    (v : α) : dictGet (dictInsert reg k v) k = some v := by
  induction reg with
  | nil => simp [dictInsert, dictGet]
  | cons p rest ih =>
    obtain ⟨k₀, v₀⟩ := p
    by_cases h : k₀ = k
    · simp [dictInsert, dictGet, h]
    · simp [dictInsert, dictGet, h, ih]

theorem dictGet_dictInsert_ne {α : Type} (reg : List (String × α)) (k k' : String)
    (v : α) (h : k' ≠ k) :
    dictGet (dictInsert reg k v) k' = dictGet reg k' := by
  induction reg with
  | nil => simp [dictInsert, dictGet, Ne.symm h]
  | cons p rest ih =>
    obtain ⟨k₀, v₀⟩ := p
    by_cases h₀ : k₀ = k
    · subst h₀
      simp [dictInsert, dictGet, Ne.symm h]
    · simp [dictInsert, dictGet, h₀, ih]

/-! ## Claim C10 — `add_train` silently replaces -/

/-- C10: registering a train whose identifier is already present always
succeeds and silently replaces the existing train: `add_train` (backend) and
`rt_add_train` (real-time) validate nothing, never report failure (the
real-time variant returns `True` unconditionally), leave every other key's
binding unchanged, and afterwards the registry maps the identifier to exactly
the supplied train. -/
theorem C10_add_train_silent_replace (reg : Registry) (t : Train)
    (rreg : RTRegistry) (rt : RTTrain) :
    dictGet (add_train reg t) t.id = some t
    ∧ (∀ k, k ≠ t.id → dictGet (add_train reg t) k = dictGet reg k)
    ∧ (rt_add_train rreg rt).1 = true
    ∧ dictGet (rt_add_train rreg rt).2 rt.train_id = some rt
    ∧ (∀ k, k ≠ rt.train_id →
        dictGet (rt_add_train rreg rt).2 k = dictGet rreg k) :=
  ⟨dictGet_dictInsert_self reg t.id t,
   fun k hk => dictGet_dictInsert_ne reg t.id k t hk,
   rfl,
   dictGet_dictInsert_self rreg rt.train_id rt,
   fun k hk => dictGet_dictInsert_ne rreg rt.train_id k rt hk⟩

/-- Witness for C10: replacing `T1` (already present in `regC1`) with a
modified train succeeds, yields the new train, and leaves `T2` untouched. -/
theorem C10_witness :
    dictGet (add_train regC1 { tT1 with speed_mps := 99 }) "T1"
      = some { tT1 with speed_mps := 99 }
    ∧ ("T2" ≠ "T1"
        ∧ dictGet (add_train regC1 { tT1 with speed_mps := 99 }) "T2"
          = dictGet regC1 "T2")
    ∧ (rt_add_train regRT tRT).1 = true := by
  have h := C10_add_train_silent_replace regC1 { tT1 with speed_mps := 99 } regRT tRT
  exact ⟨h.1, ⟨by decide, h.2.1 "T2" (by decide)⟩, h.2.2.1⟩

/-! ## Claim C4 — zero-length segments -/

/-- C4 (counterexample): the train `tC4` sits on the zero-length segment
`A→B` whose successor `B→C` exists in the network, yet the tick leaves it on
`A→B` with status `stopped` — traversal is *not* instantaneous. -/
theorem C4_counterexample :
    (advance_train_position gC4 tC4).current_edge = some ("A", "B")
    ∧ (advance_train_position gC4 tC4).status = "stopped"
    ∧ (advance_train_position gC4 tC4).position = 0
    ∧ gC4.hasEdge "B" "C" = true := by decide

/-- C4 (amended): a train whose current segment has length `≤ 0` is stopped in
place: only its status changes (to `stopped`); segment and position are
unchanged, and it does not move onto the next route segment. -/
theorem C4_zero_length_stops (g : Graph) (t : Train) (u v : String)
    (he : t.current_edge = some (u, v)) (hL : edge_length g u v ≤ 0) :
    advance_train_position g t = { t with status := "stopped" } := by
  simp [advance_train_position, he, advanceOnEdge, hL]

/-- Witness for C4's amended theorem at the concrete zero-length scenario. -/
theorem C4_witness :
    tC4.current_edge = some ("A", "B") ∧ edge_length gC4 "A" "B" ≤ 0
    ∧ advance_train_position gC4 tC4 = { tC4 with status := "stopped" } :=
  ⟨rfl, by decide, C4_zero_length_stops gC4 tC4 "A" "B" rfl (by decide)⟩

/-! ## Claim C5 — reroute validation -/

/-- C5 (counterexample): rerouting `R1` to the path `X,Y`, whose first edge
`X→Y` does not exist in the network, is *accepted* (the handler returns
`True`) and mutates the train's state — the command is not rejected. -/
theorem C5_counterexample :
    gRT.hasEdge "X" "Y" = false
    ∧ (inject_event regRT "R1" (.reroute ["X", "Y"])).1 = true
    ∧ (inject_event regRT "R1" (.reroute ["X", "Y"])).2 ≠ regRT := by decide

/-- C5 (amended): a reroute whose path has fewer than two nodes is rejected
(`False` is returned, the registry is untouched); a reroute whose path has at
least two nodes is accepted unconditionally — the handler never consults the
track network, so the route, current segment (set to the path's first node
pair), position (reset to 0) and status (set to `running`) are overwritten
even when the first edge does not exist. -/
theorem C5_reroute_validation (reg : RTRegistry) (tid : String)
    (path : List String) :
    (path.length < 2 → inject_event reg tid (.reroute path) = (false, reg))
    ∧ (∀ t, dictGet reg tid = some t → 2 ≤ path.length →
        inject_event reg tid (.reroute path)
          = (true, dictInsert reg tid
              { t with path_nodes := path,
                       position_edge := some (path.getD 0 "", path.getD 1 ""),
                       position_m := 0, status := "running" })) := by
  constructor
  · intro hlen
    unfold inject_event
    cases h : dictGet reg tid with
    | none => rfl
    | some t => simp [Nat.not_le.mpr hlen]
  · intro t ht hlen
    unfold inject_event
    rw [ht]
    simp [hlen]

/-- Witness for C5's amended theorem: the short path `[X]` is rejected with
the registry unchanged; the path `[X, Y]` (two nodes) is accepted and
overwrites `R1`'s route state. -/
theorem C5_witness :
    (List.length ["X"] < 2
      ∧ inject_event regRT "R1" (.reroute ["X"]) = (false, regRT))
    ∧ (dictGet regRT "R1" = some tRT ∧ 2 ≤ List.length ["X", "Y"]
      ∧ inject_event regRT "R1" (.reroute ["X", "Y"])
        = (true, dictInsert regRT "R1"
            { tRT with path_nodes := ["X", "Y"],
                       position_edge := some ("X", "Y"),
                       position_m := 0, status := "running" })) := by
  refine ⟨⟨by decide, (C5_reroute_validation regRT "R1" ["X"]).1 (by decide)⟩,
    by decide, by decide, ?_⟩
  exact (C5_reroute_validation regRT "R1" ["X", "Y"]).2 tRT (by decide) (by decide)

/-! ## Claim C9 — idempotent snapshot -/

/-- The snapshot fold appends one row and one (unchanged) registry entry per
train. -/
theorem state_snapshot_fold (g : Graph) (reg : Registry) (a : List SnapshotRow)
    (b : Registry) :
    reg.foldl (fun acc p => (acc.1 ++ [snapshotRow g p.2], acc.2 ++ [p])) (a, b)
      = (a ++ reg.map (fun p => snapshotRow g p.2), b ++ reg) := by
  induction reg generalizing a b with
  | nil => simp
  | cons p rest ih => simp [ih]

/-- C9: the snapshot accessor leaves every train unchanged (the registry it
threads back out is the registry it was given), and calling it twice without
an intervening tick returns identical row data. -/
theorem C9_snapshot_idempotent (g : Graph) (reg : Registry) :
    (state_snapshot g reg).2 = reg
    ∧ (state_snapshot g (state_snapshot g reg).2).1 = (state_snapshot g reg).1 := by
  have h := state_snapshot_fold g reg [] []
  constructor <;> simp [state_snapshot, h]

/-! ## Claim C3 — position advancement formula -/

/-- C3: for a running (non-held, non-delayed) train on a segment of positive
length, with nonnegative position and effective speed
(`effectiveSpeed` = min of the train's rated speed and the segment's speed
limit converted to m/s, when present): the position reached along the segment
is `min(length, old position + effective speed × 60)` — either that is the
train's new position, or the train reached the segment end (within the `1e-3`
tolerance) and was placed at position 0 of its next segment — and the distance
advanced never exceeds `effective speed × 60` (60 simulated seconds per
tick). -/
theorem C3_advance_formula (g : Graph) (t : Train) (u v : String)
    (he : t.current_edge = some (u, v))
    (_hs : t.status = "running")
    (hL : 0 < edge_length g u v)
    (_hp : 0 ≤ t.position)
    (hv : 0 ≤ effectiveSpeed g t u v) :
    ((advance_train_position g t).position
        = min (edge_length g u v) (t.position + effectiveSpeed g t u v * 60)
      ∨ ((advance_train_position g t).position = 0
        ∧ edge_length g u v - 1 / 1000
            ≤ min (edge_length g u v) (t.position + effectiveSpeed g t u v * 60)))
    ∧ min (edge_length g u v) (t.position + effectiveSpeed g t u v * 60) - t.position
        ≤ effectiveSpeed g t u v * 60 := by
  have hmax : max 0 (effectiveSpeed g t u v) = effectiveSpeed g t u v := max_eq_right hv
  constructor
  · have h1 : advance_train_position g t = advanceOnEdge g t u v := by
      simp [advance_train_position, he]
    rw [h1]
    unfold advanceOnEdge
    simp only [hmax, if_neg (not_le.mpr hL)]
    split
    · split
      · rename_i hb hidx
        split
        · split
          · simp_all
          · simp_all
        · simp_all
      · simp_all
    · simp_all
  · have h2 := min_le_right (edge_length g u v) (t.position + effectiveSpeed g t u v * 60)
    linarith

/-- Witness for C3 at the concrete train `tT1` (already at the end of `A→B`,
so the tick carries it onto `B→D` at position 0). -/
theorem C3_witness :
    tT1.current_edge = some ("A", "B") ∧ tT1.status = "running"
    ∧ 0 < edge_length gC1 "A" "B" ∧ 0 ≤ tT1.position
    ∧ 0 ≤ effectiveSpeed gC1 tT1 "A" "B"
    ∧ (((advance_train_position gC1 tT1).position
          = min (edge_length gC1 "A" "B")
              (tT1.position + effectiveSpeed gC1 tT1 "A" "B" * 60)
        ∨ ((advance_train_position gC1 tT1).position = 0
          ∧ edge_length gC1 "A" "B" - 1 / 1000
              ≤ min (edge_length gC1 "A" "B")
                  (tT1.position + effectiveSpeed gC1 tT1 "A" "B" * 60)))
      ∧ min (edge_length gC1 "A" "B")
            (tT1.position + effectiveSpeed gC1 tT1 "A" "B" * 60) - tT1.position
          ≤ effectiveSpeed gC1 tT1 "A" "B" * 60) :=
  ⟨rfl, rfl, by decide, by decide, by decide,
   C3_advance_formula gC1 tT1 "A" "B" rfl rfl (by decide) (by decide) (by decide)⟩

/-! ## Claim C6 — breakdown -/

/-- C6: the breakdown command does set status `delayed` and speed `0`, but on
the very next tick (`dt = 1/2` s) the advancement code's `t.speed_mps or
max_speed` treats the zero speed as unset and restores the full speed
(10 m/s): the still-`delayed` train moves from position 0 to position 5 —
"a delayed train never advances" fails one tick after the breakdown, with no
clearing command in between. -/
theorem C6_breakdown_train_still_moves :
    inject_event regRT "R1" .breakdown
      = (true, [("R1", { tRT with status := "delayed", speed_mps := 0 })])
    ∧ dictGet (rt_tick gRT (1 / 2) (inject_event regRT "R1" .breakdown).2) "R1"
      = some { tRT with status := "delayed", speed_mps := 10, position_m := 5 } :=
  ⟨by rfl, by
    norm_num [rt_tick, inject_event, regRT, dictGet, dictInsert, advance_train, tRT,
      rtAdvanceOnEdge, rt_edge_length, gRT, Graph.findEdge, Graph.maxSpeedKmh,
      rtMaxSpeed, indexOfNode, List.getD, Graph.hasEdge]⟩

/-! ## Claim C8 — conflict detector characterisation -/

theorem groupIds_addToGroup_self (gs : List ((String × String) × List String))
    (e : String × String) (i : String) :
    groupIds (addToGroup gs e i) e = groupIds gs e ++ [i] := by
  induction gs with
  | nil => simp [addToGroup, groupIds]
  | cons p rest ih =>
    obtain ⟨k, ids⟩ := p
    by_cases h : k = e
    · simp [addToGroup, groupIds, h]
    · simp [addToGroup, groupIds, h, ih]

theorem groupIds_addToGroup_ne (gs : List ((String × String) × List String))
    (e e' : String × String) (i : String) (h : e' ≠ e) :
    groupIds (addToGroup gs e i) e' = groupIds gs e' := by
  induction gs with
  | nil => simp [addToGroup, groupIds, Ne.symm h]
  | cons p rest ih =>
    obtain ⟨k, ids⟩ := p
    by_cases hk : k = e
    · subst hk
      simp [addToGroup, groupIds, Ne.symm h]
    · simp [addToGroup, groupIds, hk, ih]

/-- After folding the `_find_conflicts` loop, the group stored for an edge
lists exactly the ids of the trains that request that edge, in registry
order. -/
theorem groupIds_fold (g : Graph) (ts : List Train) (e : String × String) :
    ∀ acc, groupIds (ts.foldl (conflictStep g) acc) e
      = groupIds acc e
        ++ (ts.filter (fun t => requestedEdge g t = some e)).map Train.id := by
  induction ts with
  | nil => intro acc; simp
  | cons t rest ih =>
    intro acc
    simp only [List.foldl_cons]
    rw [ih]
    cases hreq : requestedEdge g t with
    | none => simp [conflictStep, hreq]
    | some e' =>
      by_cases he' : e' = e
      · subst he'
        simp [conflictStep, hreq, groupIds_addToGroup_self]
      · simp [conflictStep, hreq, groupIds_addToGroup_ne _ _ _ _ (Ne.symm he'), he']

theorem addToGroup_keys (gs : List ((String × String) × List String))
    (e : String × String) (i : String) :
    (addToGroup gs e i).map Prod.fst
      = if e ∈ gs.map Prod.fst then gs.map Prod.fst
        else gs.map Prod.fst ++ [e] := by
  induction gs with
  | nil => simp [addToGroup]
  | cons p rest ih =>
    obtain ⟨k, ids⟩ := p
    by_cases h : k = e
    · simp [addToGroup, h]
    · simp only [addToGroup, if_neg h, List.map_cons, ih]
      by_cases hm : e ∈ rest.map Prod.fst
      · simp [hm, List.mem_cons, Ne.symm h]
      · simp [hm, List.mem_cons, Ne.symm h]

theorem addToGroup_keys_nodup (gs : List ((String × String) × List String))
    (e : String × String) (i : String) (h : (gs.map Prod.fst).Nodup) :
    ((addToGroup gs e i).map Prod.fst).Nodup := by
  rw [addToGroup_keys]
  split
  · exact h
  · rename_i hmem
    simp [List.nodup_append, h, hmem]

/-- `edge_to_trains` never holds two groups for the same edge. -/
theorem conflictGroups_keys_nodup (g : Graph) (ts : List Train) :
    ((conflictGroups g ts).map Prod.fst).Nodup := by
  have main : ∀ acc : List ((String × String) × List String),
      (acc.map Prod.fst).Nodup →
      ((ts.foldl (conflictStep g) acc).map Prod.fst).Nodup := by
    induction ts with
    | nil => intro acc h; simpa using h
    | cons t rest ih =>
      intro acc h
      simp only [List.foldl_cons]
      apply ih
      cases hreq : requestedEdge g t with
      | none => simpa [conflictStep, hreq] using h
      | some e => simpa [conflictStep, hreq] using addToGroup_keys_nodup acc e t.id h
  simpa [conflictGroups] using main [] (by simp)

theorem groupIds_of_mem (gs : List ((String × String) × List String))
    (e : String × String) (ids : List String)
    (hnd : (gs.map Prod.fst).Nodup) (hmem : (e, ids) ∈ gs) :
    groupIds gs e = ids := by
  induction gs with
  | nil => simp at hmem
  | cons p rest ih =>
    obtain ⟨k, ids₀⟩ := p
    simp only [List.map_cons, List.nodup_cons] at hnd
    rcases List.mem_cons.mp hmem with h | h
    · have h1 : e = k := congrArg Prod.fst h
      have h2 : ids = ids₀ := congrArg Prod.snd h
      subst h1
      subst h2
      simp [groupIds]
    · have hk : k ≠ e := by
        intro hke
        subst hke
        exact hnd.1 (by simpa using List.mem_map_of_mem Prod.fst h)
      simp [groupIds, hk, ih hnd.2 h]

theorem mem_of_groupIds (gs : List ((String × String) × List String))
    (e : String × String) (hne : groupIds gs e ≠ []) :
    (e, groupIds gs e) ∈ gs := by
  induction gs with
  | nil => simp [groupIds] at hne
  | cons p rest ih =>
    obtain ⟨k, ids₀⟩ := p
    by_cases h : k = e
    · subst h
      simp [groupIds]
    · simp only [groupIds, if_neg h] at hne ⊢
      exact List.mem_cons_of_mem _ (ih hne)

/-- C8 (counterexample): train `tX` is at the end of its *final* route segment
`A→D`, so in the spec's words it intends no next segment (`specIntendedNext`
is `none`); but because its route revisits node `A`, the detector's
first-occurrence index lookup computes `(B, C)` as its next edge, and the
detector reports `B→C` as a conflict although only one train (`tY`) actually
intends to enter it. -/
theorem C8_counterexample :
    find_conflicts gC8 [tX, tY] = [(("B", "C"), ["X", "Y"])]
    ∧ specIntendedNext gC8 tX = none
    ∧ specIntendedNext gC8 tY = some ("B", "C")
    ∧ ([tX, tY].filter
        (fun t => specIntendedNext gC8 t = some ("B", "C"))).length = 1 := by
  have h1 : ((100 : ℚ) ≥ 100 - 1 / 1000) = True := by norm_num
  simp [find_conflicts, conflictGroups, conflictStep, requestedEdge,
    specIntendedNext, followingSegment, tX, tY, gC8, edge_length, Graph.findEdge,
    Graph.hasEdge, indexOfNode, addToGroup, groupIds, List.getD, List.filter,
    List.find?, List.any, h1]

/-- C8 (amended): the conflict detector is a pure function of the registry,
and it reports `(edge, ids)` exactly when `ids` is the list (in registry
order) of the trains whose *computed* next-segment request — the first route
edge when the train has no current segment; otherwise, at the end of its
current segment, the edge `(route[i+1], route[i+2])` for `i` the first
occurrence of the current segment's source node in the route, provided that
edge exists in the network — equals `edge`, and at least two trains request
it. (The computed request agrees with the spec's "following route segment"
whenever routes do not revisit nodes; `C8_counterexample` shows the
divergence when they do.) -/
theorem C8_conflicts_characterisation (g : Graph) (trains : List Train)
    (e : String × String) (ids : List String) :
    (e, ids) ∈ find_conflicts g trains
      ↔ (ids = (trains.filter (fun t => requestedEdge g t = some e)).map Train.id
        ∧ 2 ≤ ids.length) := by
  have hg : groupIds (conflictGroups g trains) e
      = (trains.filter (fun t => requestedEdge g t = some e)).map Train.id := by
    simpa [conflictGroups, groupIds] using groupIds_fold g trains e []
  constructor
  · intro hmem
    have hmem' : (e, ids) ∈ conflictGroups g trains ∧ 1 < ids.length := by
      simpa [find_conflicts] using List.mem_filter.mp hmem
    have heq := groupIds_of_mem _ _ _ (conflictGroups_keys_nodup g trains) hmem'.1
    exact ⟨heq ▸ hg, hmem'.2⟩
  · rintro ⟨hids, hlen⟩
    have hne : ids ≠ [] := by
      intro h
      rw [h] at hlen
      simp at hlen
    have heq : groupIds (conflictGroups g trains) e = ids := by rw [hg, ← hids]
    have hmem := mem_of_groupIds (conflictGroups g trains) e (heq ▸ hne)
    rw [heq] at hmem
    exact List.mem_filter.mpr ⟨hmem, by simpa using hlen⟩

/-! ## Claims C1 and C2 — conflict decisions do not stop the losing train

`_apply_decisions` marks a losing train held and charges it one minute of
delay, but `_step_one_minute` then advances *every* train —
`_advance_train_position` never inspects `status` — so the held train crosses
onto the contested segment in the same tick. The lemmas below show the
violation for *every* possible optimizer output (`ConflictDecisionOptimizer`
itself is absent from the sources; no choice of decision map avoids the
overlap). -/

/-- `_apply_decisions` only ever touches a train's `status` and `delay_min`
fields. -/
theorem applyDecisionToTrain_shape (g : Graph) (key winner : String) (t : Train) :
    ∃ s d, applyDecisionToTrain g key winner t
      = { t with status := s, delay_min := d } := by
  unfold applyDecisionToTrain
  split
  · exact ⟨t.status, t.delay_min, rfl⟩
  · split
    · split
      · split
        · dsimp only
          split
          · exact ⟨"held", t.delay_min + 1, rfl⟩
          · exact ⟨t.status, t.delay_min, rfl⟩
        · exact ⟨t.status, t.delay_min, rfl⟩
      · exact ⟨t.status, t.delay_min, rfl⟩
    · exact ⟨t.status, t.delay_min, rfl⟩

/-- Applying an arbitrary decision map to the two-train contention registry
changes at most the trains' `status` and `delay_min`. -/
theorem apply_decisions_two_shape (g : Graph) (ds : List (String × String)) :
    ∀ s₁ d₁ s₂ d₂, ∃ s₁' d₁' s₂' d₂',
      apply_decisions g ds
        [("T1", { tT1 with status := s₁, delay_min := d₁ }),
         ("T2", { tT2 with status := s₂, delay_min := d₂ })]
      = [("T1", { tT1 with status := s₁', delay_min := d₁' }),
         ("T2", { tT2 with status := s₂', delay_min := d₂' })] := by
  induction ds with
  | nil => exact fun s₁ d₁ s₂ d₂ => ⟨s₁, d₁, s₂, d₂, rfl⟩
  | cons kw rest ih =>
    intro s₁ d₁ s₂ d₂
    obtain ⟨key, winner⟩ := kw
    obtain ⟨a₁, b₁, h₁⟩ :=
      applyDecisionToTrain_shape g key winner { tT1 with status := s₁, delay_min := d₁ }
    obtain ⟨a₂, b₂, h₂⟩ :=
      applyDecisionToTrain_shape g key winner { tT2 with status := s₂, delay_min := d₂ }
    simp only [apply_decisions, List.foldl_cons, List.map_cons, List.map_nil] at ih ⊢
    rw [h₁, h₂]
    exact ih a₁ b₁ a₂ b₂

/-- In the contention scenario both trains request `B→D`, which the detector
reports as the (only) conflict. -/
theorem find_conflicts_C1 :
    find_conflicts gC1 [tT1, tT2] = [(("B", "D"), ["T1", "T2"])] := by
  have h1 : ((100 : ℚ) ≥ 100 - 1 / 1000) = True := by norm_num
  simp [find_conflicts, conflictGroups, conflictStep, requestedEdge, tT1, tT2, gC1,
    edge_length, Graph.findEdge, Graph.hasEdge, indexOfNode, addToGroup, List.getD,
    List.filter, List.find?, List.any, h1]

/-- Advancing `tT1` moves it onto `B→D` at position 0 whatever its `status`
and `delay_min` are — in particular also when it was just held. -/
theorem advance_tT1_any (s : String) (d : ℕ) :
    advance_train_position gC1 { tT1 with status := s, delay_min := d }
      = { tT1 with status := "running", delay_min := d,
                   current_edge := some ("B", "D"), position := 0 } := by
  have h1 : ((100 : ℚ) ≥ 100 - 1 / 1000) = True := by norm_num
  have h2 : ((100 : ℚ) ≤ 0) = False := by norm_num
  have h3 : max (0 : ℚ) 10 = 10 := by norm_num
  have h4 : min (100 : ℚ) (100 + 10 * 60) = 100 := by norm_num
  simp [advance_train_position, advanceOnEdge, tT1, gC1, edge_length,
    Graph.findEdge, Graph.maxSpeedKmh, effectiveSpeed, indexOfNode, Graph.hasEdge,
    List.getD, List.find?, List.any, h1, h2, h3, h4]

/-- Advancing `tT2` moves it onto `B→D` at position 0 whatever its `status`
and `delay_min` are — in particular also when it was just held. -/
theorem advance_tT2_any (s : String) (d : ℕ) :
    advance_train_position gC1 { tT2 with status := s, delay_min := d }
      = { tT2 with status := "running", delay_min := d,
                   current_edge := some ("B", "D"), position := 0 } := by
  have h1 : ((100 : ℚ) ≥ 100 - 1 / 1000) = True := by norm_num
  have h2 : ((100 : ℚ) ≤ 0) = False := by norm_num
  have h3 : max (0 : ℚ) 10 = 10 := by norm_num
  have h4 : min (100 : ℚ) (100 + 10 * 60) = 100 := by norm_num
  simp [advance_train_position, advanceOnEdge, tT2, gC1, edge_length,
    Graph.findEdge, Graph.maxSpeedKmh, effectiveSpeed, indexOfNode, Graph.hasEdge,
    List.getD, List.find?, List.any, h1, h2, h3, h4]

/-- C1: mutual exclusion fails in a reachable state. Two trains contend for
segment `B→D`; whatever decision map the optimizer returns (the statement
quantifies over every possible `decide` function), at the end of the tick
*both* trains have status `running`, current segment `B→D`, and position
`0 < length` — two trains are simultaneously mid-traversal of the same
directed segment, because holding a train does not stop the advancement
phase from moving it onto the contested edge. -/
theorem C1_mutual_exclusion_violated
    (dec : List ((String × String) × List String) → Registry →
      List (String × String)) :
    ∃ t1 t2,
      step_one_minute gC1 dec regC1 = [("T1", t1), ("T2", t2)]
      ∧ t1.current_edge = some ("B", "D") ∧ t2.current_edge = some ("B", "D")
      ∧ t1.status = "running" ∧ t2.status = "running"
      ∧ t1.position < edge_length gC1 "B" "D"
      ∧ t2.position < edge_length gC1 "B" "D" := by
  obtain ⟨s₁, d₁, s₂, d₂, hshape⟩ :=
    apply_decisions_two_shape gC1
      (dec [(("B", "D"), ["T1", "T2"])] regC1) "running" 0 "running" 0
  have hstart : [("T1", { tT1 with status := "running", delay_min := 0 }),
      ("T2", { tT2 with status := "running", delay_min := 0 })] = regC1 := rfl
  rw [hstart] at hshape
  apply Exists.intro { tT1 with status := "running", delay_min := d₁, current_edge := some ("B", "D"), position := 0 }
  apply Exists.intro { tT2 with status := "running", delay_min := d₂, current_edge := some ("B", "D"), position := 0 }
  refine ⟨?_, rfl, rfl, rfl, rfl, ?_, ?_⟩
  · unfold step_one_minute
    rw [show (regC1.map Prod.snd) = [tT1, tT2] from rfl, find_conflicts_C1]
    simp only [List.isEmpty_cons, Bool.false_eq_true, if_false]
    rw [hshape]
    simp only [List.map_cons, List.map_nil]
    rw [advance_tT1_any s₁ d₁, advance_tT2_any s₂ d₂]
  · show (0 : ℚ) < edge_length gC1 "B" "D"
    have h5 : (0 : ℚ) < 100 := by norm_num
    simp [edge_length, gC1, Graph.findEdge, List.find?, h5]
  · show (0 : ℚ) < edge_length gC1 "B" "D"
    have h5 : (0 : ℚ) < 100 := by norm_num
    simp [edge_length, gC1, Graph.findEdge, List.find?, h5]

/-- C2: with the decision map granting `B→D` to `T1`, the losing train `T2`
is indeed marked `held` with its delay increased by exactly one minute after
`_apply_decisions`; but at the end of the same tick `T2` has *advanced onto
the contested segment* — its current segment changed from `C→B` to `B→D`
(position 0, status overwritten back to `running`) — contradicting "it does
not advance onto the contested segment during that tick". -/
theorem C2_loser_held_but_advances :
    dictGet (apply_decisions gC1 [("B->D", "T1")] regC1) "T2"
      = some { tT2 with status := "held", delay_min := 1 }
    ∧ dictGet (step_one_minute gC1 (fun _ _ => [("B->D", "T1")]) regC1) "T2"
      = some { tT2 with status := "running", delay_min := 1, current_edge := some ("B", "D"), position := 0 }
    ∧ tT2.current_edge = some ("C", "B") := by
  have ha : ("B" ++ "->" ++ "D" : String) = "B->D" := rfl
  have h1 : ((100 : ℚ) ≥ 100 - 1 / 1000) = True := by norm_num
  have e1 : apply_decisions gC1 [("B->D", "T1")] regC1
      = [("T1", { tT1 with status := "running", delay_min := 0 }),
         ("T2", { tT2 with status := "held", delay_min := 1 })] := by
    simp [apply_decisions, applyDecisionToTrain, regC1, tT1, tT2, gC1, edge_length,
      Graph.findEdge, indexOfNode, List.getD, List.find?, ha, h1]
  refine ⟨?_, ?_, rfl⟩
  · rw [e1]
    rfl
  · unfold step_one_minute
    rw [show (regC1.map Prod.snd) = [tT1, tT2] from rfl, find_conflicts_C1]
    simp only [List.isEmpty_cons, Bool.false_eq_true, if_false]
    rw [e1]
    simp only [List.map_cons, List.map_nil]
    rw [advance_tT1_any "running" 0, advance_tT2_any "held" 1]
    rfl

end Railway
